import Mathlib

/-!
Verification of the optimistic-update / change-stream reconciliation logic of
the todo application (`src/todo-app/src/App.tsx`, `src/todo-app/src/lib/supabase.ts`).

The client cache is an ordered list of todo records (`todos` state in `TodoApp`).
Every cache mutation in the source is a pure function passed to `setTodos`; those
functions are embedded here directly.  The asynchronous structure of each action
(which cache updates run before / after the remote write, and which only on the
error path) is embedded by composing those pure updates in the order the source
runs them, and by a small event-trace model for the ordering claims.
-/

/-- The `TodoStatus` union type of `App.tsx`: `'todo' | 'in-progress' | 'done'`. -/
inductive TodoStatus
  | todo
  | inProgress
  | done
deriving DecidableEq, Repr

/-- The `Todo` row type of `src/todo-app/src/types/database.ts`. -/
structure Todo where
  id : String
  user_id : String
  text : String
  completed : Bool
  status : TodoStatus
  created_at : String
  updated_at : String
deriving DecidableEq, Repr

/-- The cache holds at most one record per identifier. -/
def NodupIds (l : List Todo) : Prop :=
  (l.map Todo.id).Nodup

instance : DecidablePred NodupIds := fun l =>
  inferInstanceAs (Decidable ((l.map Todo.id).Nodup))

/-! ### Change-stream handlers (realtime payload callback, `App.tsx` lines 66-85) -/

/-- INSERT branch: `const exists = current.some(todo => todo.id === payload.new.id);
if (exists) return current; return [payload.new, ...current]`. -/
def handleInsert (newRec : Todo) (current : List Todo) : List Todo :=
  if current.any (fun todo => todo.id == newRec.id) then current
  else newRec :: current

/-- UPDATE branch: `current.map(todo => todo.id === payload.new.id ? payload.new : todo)`. -/
def handleUpdate (newRec : Todo) (current : List Todo) : List Todo :=
  current.map (fun todo => if todo.id == newRec.id then newRec else todo)

/-- DELETE branch: `current.filter(todo => todo.id !== payload.old.id)`. -/
def handleDelete (oldId : String) (current : List Todo) : List Todo :=
  current.filter (fun todo => !(todo.id == oldId))

/-! ### Mutating user actions (`App.tsx` lines 94-203)

Each `setTodos` updater is one definition; the `...Failure` definitions compose
the updates an action performs on its error path, in source order. -/

/-- `addTodo` success branch: `setTodos(current => [data, ...current])`; `data` is the
backend-confirmed record.  In the source this runs only after the awaited remote
insert resolves without error. -/
def addTodoSuccess (data : Todo) (current : List Todo) : List Todo :=
  data :: current

/-- `toggleTodo` optimistic update: map the matching record to
`{ ...todo, completed: !completed }` (the `completed` argument is the flag passed
by the caller, read from the record at click time). -/
def toggleTodoOptimistic (id : String) (completed : Bool) (current : List Todo) : List Todo :=
  current.map (fun todo => if todo.id == id then { todo with completed := !completed } else todo)

/-- `toggleTodo` error-path revert: map the matching record to `{ ...todo, completed }`. -/
def toggleTodoRollback (id : String) (completed : Bool) (current : List Todo) : List Todo :=
  current.map (fun todo => if todo.id == id then { todo with completed := completed } else todo)

/-- `updateTodoStatus` optimistic update: map the matching record to `{ ...todo, status }`. -/
def updateTodoStatusOptimistic (id : String) (status : TodoStatus) (current : List Todo) :
    List Todo :=
  current.map (fun todo => if todo.id == id then { todo with status := status } else todo)

/-- `updateTodoStatus` error-path revert: map the matching record to
`{ ...todo, status: oldStatus }`. -/
def updateTodoStatusRollback (id : String) (oldStatus : TodoStatus) (current : List Todo) :
    List Todo :=
  current.map (fun todo => if todo.id == id then { todo with status := oldStatus } else todo)

/-- `deleteTodo` optimistic update: `current.filter(todo => todo.id !== id)`. -/
def deleteTodoOptimistic (id : String) (current : List Todo) : List Todo :=
  current.filter (fun todo => !(todo.id == id))

/-- `deleteTodo` error-path revert: `setTodos(current => [deletedTodo, ...current])`
(prepend, guarded in source by `if (deletedTodo)`). -/
def deleteTodoRollback (deletedTodo : Todo) (current : List Todo) : List Todo :=
  deletedTodo :: current

/-- `clearCompleted` optimistic update: `current.filter(t => !t.completed)`. -/
def clearCompletedOptimistic (current : List Todo) : List Todo :=
  current.filter (fun t => !t.completed)

/-- `clearCompleted` error-path revert: `setTodos(current => [...completedTodos, ...current])`. -/
def clearCompletedRollback (completedTodos : List Todo) (current : List Todo) : List Todo :=
  completedTodos ++ current

/-- `toggleTodo` with a failing remote write: optimistic update, then revert. -/
def toggleTodoFailure (id : String) (completed : Bool) (todos : List Todo) : List Todo :=
  toggleTodoRollback id completed (toggleTodoOptimistic id completed todos)

/-- `updateTodoStatus` with a failing remote write: capture
`oldStatus = todos.find(t => t.id === id)?.status` from the pre-action cache,
optimistic update, then revert only `if (oldStatus)` (every `TodoStatus` value is a
truthy string, so the guard is exactly "a matching record was found"). -/
def updateTodoStatusFailure (id : String) (status : TodoStatus) (todos : List Todo) :
    List Todo :=
  let oldStatus := (todos.find? (fun t => t.id == id)).map Todo.status
  let optimistic := updateTodoStatusOptimistic id status todos
  match oldStatus with
  | some s => updateTodoStatusRollback id s optimistic
  | none => optimistic

/-- `deleteTodo` with a failing remote write: capture
`deletedTodo = todos.find(t => t.id === id)` from the pre-action cache, optimistic
removal, then re-insert by prepending only `if (deletedTodo)`. -/
def deleteTodoFailure (id : String) (todos : List Todo) : List Todo :=
  let deletedTodo := todos.find? (fun t => t.id == id)
  let optimistic := deleteTodoOptimistic id todos
  match deletedTodo with
  | some r => deleteTodoRollback r optimistic
  | none => optimistic

/-- `clearCompleted` with a failing remote write: capture
`completedTodos = todos.filter(t => t.completed)` from the pre-action cache,
optimistic removal, then prepend the captured records. -/
def clearCompletedFailure (todos : List Todo) : List Todo :=
  let completedTodos := todos.filter (fun t => t.completed)
  clearCompletedRollback completedTodos (clearCompletedOptimistic todos)

/-! ### Event traces: the order of cache mutation vs. remote write inside each action -/

/-- One observable step of a mutating action: a synchronous local cache mutation
(a `setTodos` call) or the issuing of the remote write (`await supabase...`). -/
inductive ActionEvt
  | localMutation
  | remoteWrite
deriving DecidableEq, Repr

/-- `addTodo` success path, in source order: the remote insert is awaited FIRST
(lines 97-106) and `setTodos` runs only in the no-error branch (line 112). -/
def addTodoEvents : List ActionEvt := [ActionEvt.remoteWrite, ActionEvt.localMutation]

/-- `toggleTodo`: `setTodos` (line 120) strictly before the awaited update (line 126). -/
def toggleTodoEvents : List ActionEvt := [ActionEvt.localMutation, ActionEvt.remoteWrite]

/-- `updateTodoStatus`: `setTodos` (line 147) strictly before the awaited update (line 153). -/
def updateTodoStatusEvents : List ActionEvt := [ActionEvt.localMutation, ActionEvt.remoteWrite]

/-- `deleteTodo`: `setTodos` (line 176) strictly before the awaited delete (line 178). -/
def deleteTodoEvents : List ActionEvt := [ActionEvt.localMutation, ActionEvt.remoteWrite]

/-- `clearCompleted`: `setTodos` (line 194) strictly before the awaited delete (line 196). -/
def clearCompletedEvents : List ActionEvt := [ActionEvt.localMutation, ActionEvt.remoteWrite]

/-- The action mutates the local cache strictly before issuing its remote write. -/
def localPrecedesRemote (l : List ActionEvt) : Prop :=
  l.indexOf ActionEvt.localMutation < l.indexOf ActionEvt.remoteWrite

instance : DecidablePred localPrecedesRemote := fun l =>
  inferInstanceAs (Decidable (l.indexOf ActionEvt.localMutation < l.indexOf ActionEvt.remoteWrite))

/-! ### Configuration gate (`supabase.ts` lines 4-8, `AppContent` lines 422-465) -/

/-- JavaScript truthiness of an environment variable (`string | undefined`):
falsy exactly when it is absent or the empty string. -/
def truthyEnv : Option String → Bool
  | none => false
  | some s => !(s == "")

/-- `hasSupabaseConfig = !!(supabaseUrl && supabaseAnonKey)`. -/
def hasSupabaseConfig (url anonKey : Option String) : Bool :=
  truthyEnv url && truthyEnv anonKey

/-- The four top-level screens `AppContent` can return. -/
inductive Screen
  | configError
  | loadingScreen
  | authModal
  | todoApp
deriving DecidableEq, Repr

/-- `AppContent`: config-error screen when `!hasSupabaseConfig`, else the loading
screen while auth is loading, else the auth modal when there is no user, else the
todo application. -/
def appContent (hasConfig : Bool) (loading : Bool) (user : Option String) : Screen :=
  if !hasConfig then Screen.configError
  else if loading then Screen.loadingScreen
  else
    match user with
    | none => Screen.authModal
    | some _ => Screen.todoApp

/-! ### Sample records for concrete evaluations -/

def sampleTodoA : Todo :=
  { id := "a1", user_id := "u1", text := "Buy milk", completed := false,
    status := TodoStatus.todo, created_at := "t1", updated_at := "t1" }

def sampleTodoB : Todo :=
  { id := "b2", user_id := "u1", text := "Walk dog", completed := true,
    status := TodoStatus.done, created_at := "t2", updated_at := "t2" }

/-! ### Helper lemmas -/

/-- A map that never changes the `id` field leaves the list of identifiers unchanged. -/
theorem map_ids_of_id_preserving (f : Todo → Todo) (hf : ∀ t, (f t).id = t.id)
    (l : List Todo) : (l.map f).map Todo.id = l.map Todo.id := by
  rw [List.map_map]
  exact List.map_congr_left (fun a _ => hf a)

theorem nodupIds_map (f : Todo → Todo) (hf : ∀ t, (f t).id = t.id) (l : List Todo)
    (h : NodupIds l) : NodupIds (l.map f) := by
  unfold NodupIds at h ⊢
  rw [map_ids_of_id_preserving f hf]
  exact h

theorem nodupIds_filter (p : Todo → Bool) (l : List Todo) (h : NodupIds l) :
    NodupIds (l.filter p) :=
  List.Nodup.sublist ((List.filter_sublist l).map Todo.id) h

/-- Updating the record with a given key never changes any identifier. -/
theorem keyed_update_preserves_id (i : String) (g : Todo → Todo)
    (hg : ∀ t, (g t).id = t.id) (t : Todo) :
    ((fun u => if u.id == i then g u else u) t).id = t.id := by
  by_cases h : t.id == i <;> simp [h, hg]

/-- Two distinct cache entries cannot share an identifier when `NodupIds` holds. -/
theorem nodupIds_inj (l : List Todo) (h : NodupIds l) (t u : Todo)
    (ht : t ∈ l) (hu : u ∈ l) (hid : t.id = u.id) : t = u :=
  List.inj_on_of_nodup_map h ht hu hid

/-- A keyed map whose update fixes every matching element is the identity. -/
theorem keyed_map_eq_self (i : String) (g : Todo → Todo) (l : List Todo)
    (h : ∀ t ∈ l, t.id = i → g t = t) :
    l.map (fun t => if t.id == i then g t else t) = l := by
  have h2 : ∀ a ∈ l, (fun t => if t.id == i then g t else t) a = id a := by
    intro a ha
    by_cases hid : a.id == i
    · simp only [hid, if_true, id_eq]
      exact h a ha (by simpa using hid)
    · simp [hid]
  rw [List.map_congr_left h2, List.map_id]

/-- Two successive keyed maps on the same key compose pointwise. -/
theorem keyed_map_comp (i : String) (g₁ g₂ : Todo → Todo) (hg : ∀ t, (g₁ t).id = t.id)
    (l : List Todo) :
    (l.map (fun t => if t.id == i then g₁ t else t)).map
        (fun t => if t.id == i then g₂ t else t)
      = l.map (fun t => if t.id == i then g₂ (g₁ t) else t) := by
  rw [List.map_map]
  refine List.map_congr_left (fun a _ => ?_)
  by_cases h : a.id == i
  · simp [Function.comp, h, hg]
  · simp [Function.comp, h]

theorem todo_set_completed_self (t : Todo) : { t with completed := t.completed } = t := by
  cases t
  rfl

theorem todo_set_status_self (t : Todo) : { t with status := t.status } = t := by
  cases t
  rfl

/-- A failed toggle restores the cache exactly, provided the `completed` argument is
the flag of the (unique) record with that identifier — which is how the UI calls it. -/
theorem toggleTodoFailure_eq_self (i : String) (t : Todo) (l : List Todo)
    (h : NodupIds l) (ht : t ∈ l) (hid : t.id = i) :
    toggleTodoFailure i t.completed l = l := by
  unfold toggleTodoFailure toggleTodoRollback toggleTodoOptimistic
  rw [keyed_map_comp i (fun u => { u with completed := !t.completed })
    (fun u => { u with completed := t.completed }) (fun u => rfl) l]
  refine keyed_map_eq_self i _ l ?_
  intro u hu huid
  have heq : u = t := nodupIds_inj l h u t hu ht (by rw [huid, hid])
  subst heq
  cases u
  rfl

/-- No record matches: the optimistic status update is the identity. -/
theorem updateTodoStatusOptimistic_eq_self (i : String) (s : TodoStatus) (l : List Todo)
    (habs : ∀ u ∈ l, u.id ≠ i) :
    updateTodoStatusOptimistic i s l = l := by
  unfold updateTodoStatusOptimistic
  exact keyed_map_eq_self i _ l (fun u hu huid => absurd huid (habs u hu))

/-- A failed status update restores the cache exactly when identifiers are unique. -/
theorem updateTodoStatusFailure_eq_self (i : String) (s : TodoStatus) (l : List Todo)
    (h : NodupIds l) :
    updateTodoStatusFailure i s l = l := by
  unfold updateTodoStatusFailure
  cases hf : l.find? (fun u => u.id == i) with
  | none =>
    have habs : ∀ u ∈ l, u.id ≠ i := by
      intro u hu
      have := List.find?_eq_none.mp hf u hu
      simpa using this
    exact updateTodoStatusOptimistic_eq_self i s l habs
  | some t₀ =>
    show updateTodoStatusRollback i t₀.status (updateTodoStatusOptimistic i s l) = l
    have ht₀ : t₀ ∈ l := List.mem_of_find?_eq_some hf
    have hid : t₀.id = i := by simpa using List.find?_some hf
    unfold updateTodoStatusRollback updateTodoStatusOptimistic
    rw [keyed_map_comp i (fun u => { u with status := s })
      (fun u => { u with status := t₀.status }) (fun u => rfl) l]
    refine keyed_map_eq_self i _ l ?_
    intro u hu huid
    have heq : u = t₀ := nodupIds_inj l h u t₀ hu ht₀ (by rw [huid, hid])
    subst heq
    cases u
    rfl

/-- A failed delete restores the same set of records (by prepending the deleted one). -/
theorem deleteTodoFailure_perm (i : String) : ∀ l : List Todo, NodupIds l →
    List.Perm (deleteTodoFailure i l) l := by
  intro l
  induction l with
  | nil =>
    intro _
    simp [deleteTodoFailure, deleteTodoOptimistic]
  | cons a l ih =>
    intro h
    have hHead : a.id ∉ l.map Todo.id := by
      unfold NodupIds at h
      exact (List.nodup_cons.mp (by simpa using h)).1
    have hTail : NodupIds l := by
      unfold NodupIds at h ⊢
      exact List.Nodup.of_cons (by simpa using h)
    by_cases ha : a.id == i
    · have haId : a.id = i := by simpa using ha
      have hNone : ∀ u ∈ l, u.id ≠ i := by
        intro u hu hui
        exact hHead (List.mem_map.mpr ⟨u, hu, by rw [hui, haId]⟩)
      have hfind : (a :: l).find? (fun u => u.id == i) = some a :=
        List.find?_cons_of_pos l ha
      have hfl : l.filter (fun u => !(u.id == i)) = l :=
        List.filter_eq_self.mpr (fun u hu => by simp [hNone u hu])
      have hfilter : (a :: l).filter (fun u => !(u.id == i)) = l := by
        rw [List.filter_cons_of_neg (by simp [haId])]
        exact hfl
      simp only [deleteTodoFailure, deleteTodoOptimistic, deleteTodoRollback, hfind, hfilter]
      exact List.Perm.refl _
    · have hfind : (a :: l).find? (fun u => u.id == i) = l.find? (fun u => u.id == i) :=
        List.find?_cons_of_neg l ha
      have ha' : (a.id == i) = false := by simpa using ha
      have hfilter : (a :: l).filter (fun u => !(u.id == i))
          = a :: l.filter (fun u => !(u.id == i)) :=
        List.filter_cons_of_pos (by simp [ha'])
      have ih' := ih hTail
      cases hf2 : l.find? (fun u => u.id == i) with
      | none =>
        simp only [deleteTodoFailure, deleteTodoOptimistic, hf2] at ih'
        simp only [deleteTodoFailure, deleteTodoOptimistic, deleteTodoRollback, hfind, hf2,
          hfilter]
        exact ih'.cons a
      | some r =>
        simp only [deleteTodoFailure, deleteTodoOptimistic, deleteTodoRollback, hf2] at ih'
        simp only [deleteTodoFailure, deleteTodoOptimistic, deleteTodoRollback, hfind, hf2,
          hfilter]
        exact List.Perm.trans (List.Perm.swap a r _) (ih'.cons a)

/-- A failed bulk clear restores the same set of records (completed ones prepended). -/
theorem clearCompletedFailure_perm (l : List Todo) :
    List.Perm (clearCompletedFailure l) l := by
  have hp := List.filter_append_perm (fun t => t.completed) l
  simpa [clearCompletedFailure, clearCompletedRollback, clearCompletedOptimistic] using hp

/-- Permutation transfers the unique-identifier invariant. -/
theorem nodupIds_of_perm (l₁ l₂ : List Todo) (hp : List.Perm l₁ l₂) (h : NodupIds l₂) :
    NodupIds l₁ := by
  unfold NodupIds at h ⊢
  exact ((hp.map Todo.id).nodup_iff).mpr h

/-- The optimistic toggle is the identity when no record has the identifier. -/
theorem toggleTodoOptimistic_absent (i : String) (c : Bool) (l : List Todo)
    (habs : ∀ u ∈ l, u.id ≠ i) : toggleTodoOptimistic i c l = l := by
  unfold toggleTodoOptimistic
  exact keyed_map_eq_self i _ l (fun u hu huid => absurd huid (habs u hu))

theorem toggleTodoRollback_absent (i : String) (c : Bool) (l : List Todo)
    (habs : ∀ u ∈ l, u.id ≠ i) : toggleTodoRollback i c l = l := by
  unfold toggleTodoRollback
  exact keyed_map_eq_self i _ l (fun u hu huid => absurd huid (habs u hu))

theorem deleteTodoOptimistic_absent (i : String) (l : List Todo)
    (habs : ∀ u ∈ l, u.id ≠ i) : deleteTodoOptimistic i l = l := by
  unfold deleteTodoOptimistic
  exact List.filter_eq_self.mpr (fun u hu => by simp [habs u hu])

theorem find_none_of_absent (i : String) (l : List Todo)
    (habs : ∀ u ∈ l, u.id ≠ i) : l.find? (fun u => u.id == i) = none :=
  List.find?_eq_none.mpr (fun u hu => by simp [habs u hu])

theorem updateTodoStatusFailure_absent (i : String) (s : TodoStatus) (l : List Todo)
    (habs : ∀ u ∈ l, u.id ≠ i) : updateTodoStatusFailure i s l = l := by
  unfold updateTodoStatusFailure
  rw [find_none_of_absent i l habs]
  exact updateTodoStatusOptimistic_eq_self i s l habs

theorem deleteTodoFailure_absent (i : String) (l : List Todo)
    (habs : ∀ u ∈ l, u.id ≠ i) : deleteTodoFailure i l = l := by
  unfold deleteTodoFailure
  rw [find_none_of_absent i l habs]
  exact deleteTodoOptimistic_absent i l habs

/-- The stream INSERT handler preserves the unique-identifier invariant. -/
theorem nodupIds_handleInsert (r : Todo) (l : List Todo) (h : NodupIds l) :
    NodupIds (handleInsert r l) := by
  unfold handleInsert
  by_cases hc : l.any (fun todo => todo.id == r.id)
  · simpa [hc]
  · rw [if_neg hc]
    unfold NodupIds at h ⊢
    simp only [List.map_cons, List.nodup_cons]
    refine ⟨?_, h⟩
    intro hmem
    rcases List.mem_map.mp hmem with ⟨u, hu, hid⟩
    exact hc (List.any_eq_true.mpr ⟨u, hu, by simp [hid]⟩)

/-- The stream UPDATE handler preserves the unique-identifier invariant. -/
theorem nodupIds_handleUpdate (r : Todo) (l : List Todo) (h : NodupIds l) :
    NodupIds (handleUpdate r l) := by
  unfold handleUpdate
  refine nodupIds_map _ (fun t => ?_) l h
  by_cases ht : t.id == r.id
  · simp only [ht, if_true]
    exact ((by simpa using ht : t.id = r.id)).symm
  · simp [ht]

/-- Positional view of a keyed map: entry `k` is the keyed update of entry `k`. -/
theorem keyed_map_get (g : Todo → Todo) (i : String) (l : List Todo) (k : Nat)
    (hk : k < l.length) (hk2 : k < (l.map (fun t => if t.id == i then g t else t)).length) :
    (l.map (fun t => if t.id == i then g t else t)).get ⟨k, hk2⟩
      = if (l.get ⟨k, hk⟩).id == i then g (l.get ⟨k, hk⟩) else l.get ⟨k, hk⟩ := by
  simp [List.get_eq_getElem, List.getElem_map]

/-! ### Claims -/

/-- C1: the claim that every mutating action applies its local optimistic mutation
before issuing its own remote write holds for toggle, set-status, delete and
bulk-clear, but FAILS for create: `addTodo` awaits the remote insert first and only
prepends the confirmed record after success (contradicting its own comment
"Optimistically add to UI immediately"). -/
theorem addTodo_remote_write_precedes_local_mutation :
    ¬ localPrecedesRemote addTodoEvents ∧
    localPrecedesRemote toggleTodoEvents ∧
    localPrecedesRemote updateTodoStatusEvents ∧
    localPrecedesRemote deleteTodoEvents ∧
    localPrecedesRemote clearCompletedEvents := by
  decide

/-- C4: the change-stream INSERT handler is idempotent by identifier — when the
incoming record's identifier already occurs in some cache entry the cache is left
exactly unchanged, and when it is absent the record is prepended. -/
theorem handleInsert_idempotent (r : Todo) (current : List Todo) :
    ((∃ t ∈ current, t.id = r.id) → handleInsert r current = current) ∧
    ((∀ t ∈ current, t.id ≠ r.id) → handleInsert r current = r :: current) := by
  constructor
  · rintro ⟨t, ht, hid⟩
    unfold handleInsert
    rw [if_pos (List.any_eq_true.mpr ⟨t, ht, by simp [hid]⟩)]
  · intro habs
    unfold handleInsert
    rw [if_neg]
    intro hc
    rcases List.any_eq_true.mp hc with ⟨t, ht, hid⟩
    exact habs t ht (by simpa using hid)

theorem handleInsert_idempotent_witness :
    handleInsert sampleTodoA [sampleTodoA] = [sampleTodoA] ∧
    handleInsert sampleTodoB [sampleTodoA] = [sampleTodoB, sampleTodoA] :=
  ⟨(handleInsert_idempotent sampleTodoA [sampleTodoA]).1 ⟨sampleTodoA, by simp, rfl⟩,
   (handleInsert_idempotent sampleTodoB [sampleTodoA]).2 (by decide)⟩

/-- C5: the change-stream DELETE handler keeps exactly the records whose identifier
differs from the event's (removing every match), and is a no-op when no record has
that identifier. -/
theorem handleDelete_removes_matching (i : String) (current : List Todo) :
    (∀ t : Todo, t ∈ handleDelete i current ↔ (t ∈ current ∧ t.id ≠ i)) ∧
    ((∀ t ∈ current, t.id ≠ i) → handleDelete i current = current) := by
  constructor
  · intro t
    unfold handleDelete
    simp [List.mem_filter]
  · intro habs
    unfold handleDelete
    exact List.filter_eq_self.mpr (fun u hu => by simp [habs u hu])

theorem handleDelete_removes_matching_witness :
    handleDelete "zz" [sampleTodoA] = [sampleTodoA] ∧
    (sampleTodoB ∈ handleDelete "a1" [sampleTodoA, sampleTodoB] ↔
      (sampleTodoB ∈ [sampleTodoA, sampleTodoB] ∧ sampleTodoB.id ≠ "a1")) :=
  ⟨(handleDelete_removes_matching "zz" [sampleTodoA]).2 (by decide),
   (handleDelete_removes_matching "a1" [sampleTodoA, sampleTodoB]).1 sampleTodoB⟩

/-- C8: the optimistic bulk clear keeps exactly the incomplete records, as a sublist
of the original cache (so the survivors keep their original relative order). -/
theorem clearCompletedOptimistic_exact (todos : List Todo) :
    List.Sublist (clearCompletedOptimistic todos) todos ∧
    (∀ t : Todo, t ∈ clearCompletedOptimistic todos ↔ (t ∈ todos ∧ t.completed = false)) := by
  constructor
  · exact List.filter_sublist todos
  · intro t
    unfold clearCompletedOptimistic
    simp [List.mem_filter]

theorem clearCompletedOptimistic_exact_witness :
    List.Sublist (clearCompletedOptimistic [sampleTodoA, sampleTodoB]) [sampleTodoA, sampleTodoB] :=
  (clearCompletedOptimistic_exact [sampleTodoA, sampleTodoB]).1

/-- C9: when either required configuration value is absent, `AppContent` renders the
configuration-error screen and never the auth modal or the todo application. -/
theorem missing_config_renders_configError (url anonKey : Option String) (loading : Bool)
    (user : Option String) (h : url = none ∨ anonKey = none) :
    appContent (hasSupabaseConfig url anonKey) loading user = Screen.configError ∧
    appContent (hasSupabaseConfig url anonKey) loading user ≠ Screen.authModal ∧
    appContent (hasSupabaseConfig url anonKey) loading user ≠ Screen.todoApp := by
  have hc : hasSupabaseConfig url anonKey = false := by
    cases h with
    | inl h =>
      subst h
      simp [hasSupabaseConfig, truthyEnv]
    | inr h =>
      subst h
      simp [hasSupabaseConfig, truthyEnv]
  rw [hc]
  refine ⟨by simp [appContent], by simp [appContent], by simp [appContent]⟩

theorem missing_config_renders_configError_witness :
    appContent (hasSupabaseConfig none (some "key")) false none = Screen.configError :=
  (missing_config_renders_configError none (some "key") false none (Or.inl rfl)).1

/-- C10: for an identifier absent from the cache, toggle, set-status and delete leave
the cache exactly unchanged, both by their optimistic updates and along their whole
error-path (optimistic update plus rollback). -/
theorem absent_id_actions_noop (todos : List Todo) (i : String) (c : Bool) (s : TodoStatus)
    (habs : ∀ u ∈ todos, u.id ≠ i) :
    toggleTodoOptimistic i c todos = todos ∧
    toggleTodoFailure i c todos = todos ∧
    updateTodoStatusOptimistic i s todos = todos ∧
    updateTodoStatusFailure i s todos = todos ∧
    deleteTodoOptimistic i todos = todos ∧
    deleteTodoFailure i todos = todos := by
  refine ⟨toggleTodoOptimistic_absent i c todos habs, ?_,
    updateTodoStatusOptimistic_eq_self i s todos habs,
    updateTodoStatusFailure_absent i s todos habs,
    deleteTodoOptimistic_absent i todos habs,
    deleteTodoFailure_absent i todos habs⟩
  unfold toggleTodoFailure
  rw [toggleTodoOptimistic_absent i c todos habs, toggleTodoRollback_absent i c todos habs]

theorem absent_id_actions_noop_witness :
    toggleTodoFailure "zz" true [sampleTodoA] = [sampleTodoA] ∧
    deleteTodoFailure "zz" [sampleTodoA] = [sampleTodoA] :=
  ⟨(absent_id_actions_noop [sampleTodoA] "zz" true TodoStatus.done (by decide)).2.1,
   (absent_id_actions_noop [sampleTodoA] "zz" true TodoStatus.done (by decide)).2.2.2.2.2⟩

/-- C2 counterexample: the change stream delivers the created record first (the
cache then has a single entry with its identifier), and `addTodo`'s success callback
prepends the confirmed record unconditionally — producing a duplicate identifier. -/
theorem addTodoSuccess_duplicates_on_stream_first :
    NodupIds (handleInsert sampleTodoA []) ∧
    ¬ NodupIds (addTodoSuccess sampleTodoA (handleInsert sampleTodoA [])) := by
  decide

/-- C2 amended: every change-stream handler and every map/filter-based optimistic or
rollback step preserves the at-most-one-entry-per-identifier invariant, and so do the
complete delete and bulk-clear failure paths; `addTodo`'s success callback preserves
it only when the confirmed record's identifier is not already cached. -/
theorem nodupIds_preserved_except_create :
    (∀ (r : Todo) (current : List Todo), NodupIds current → NodupIds (handleInsert r current)) ∧
    (∀ (r : Todo) (current : List Todo), NodupIds current → NodupIds (handleUpdate r current)) ∧
    (∀ (i : String) (current : List Todo), NodupIds current →
      NodupIds (handleDelete i current)) ∧
    (∀ (i : String) (c : Bool) (current : List Todo), NodupIds current →
      NodupIds (toggleTodoOptimistic i c current) ∧ NodupIds (toggleTodoRollback i c current)) ∧
    (∀ (i : String) (s : TodoStatus) (current : List Todo), NodupIds current →
      NodupIds (updateTodoStatusOptimistic i s current) ∧
      NodupIds (updateTodoStatusRollback i s current)) ∧
    (∀ (i : String) (current : List Todo), NodupIds current →
      NodupIds (deleteTodoOptimistic i current) ∧ NodupIds (deleteTodoFailure i current)) ∧
    (∀ current : List Todo, NodupIds current →
      NodupIds (clearCompletedOptimistic current) ∧ NodupIds (clearCompletedFailure current)) ∧
    (∀ (r : Todo) (current : List Todo), NodupIds current → r.id ∉ current.map Todo.id →
      NodupIds (addTodoSuccess r current)) := by
  refine ⟨nodupIds_handleInsert, nodupIds_handleUpdate, ?_, ?_, ?_, ?_, ?_, ?_⟩
  · intro i current h
    exact nodupIds_filter _ current h
  · intro i c current h
    exact ⟨nodupIds_map
        (fun todo => if todo.id == i then { todo with completed := !c } else todo)
        (fun t => keyed_update_preserves_id i (fun u => { u with completed := !c })
          (fun u => rfl) t) current h,
      nodupIds_map
        (fun todo => if todo.id == i then { todo with completed := c } else todo)
        (fun t => keyed_update_preserves_id i (fun u => { u with completed := c })
          (fun u => rfl) t) current h⟩
  · intro i s current h
    exact ⟨nodupIds_map
        (fun todo => if todo.id == i then { todo with status := s } else todo)
        (fun t => keyed_update_preserves_id i (fun u => { u with status := s })
          (fun u => rfl) t) current h,
      nodupIds_map
        (fun todo => if todo.id == i then { todo with status := s } else todo)
        (fun t => keyed_update_preserves_id i (fun u => { u with status := s })
          (fun u => rfl) t) current h⟩
  · intro i current h
    exact ⟨nodupIds_filter _ current h,
      nodupIds_of_perm _ current (deleteTodoFailure_perm i current h) h⟩
  · intro current h
    exact ⟨nodupIds_filter _ current h,
      nodupIds_of_perm _ current (clearCompletedFailure_perm current) h⟩
  · intro r current h hfresh
    unfold addTodoSuccess
    unfold NodupIds at h ⊢
    simp only [List.map_cons, List.nodup_cons]
    exact ⟨hfresh, h⟩

theorem nodupIds_preserved_except_create_witness :
    NodupIds (addTodoSuccess sampleTodoB [sampleTodoA]) :=
  nodupIds_preserved_except_create.2.2.2.2.2.2.2 sampleTodoB [sampleTodoA]
    (by decide) (by decide)

/-- C3 counterexample: a failed delete of the second record rolls back by prepending,
so the cache after rollback is not equal to the cache before the action. -/
theorem deleteTodoFailure_reorders :
    deleteTodoFailure "b2" [sampleTodoA, sampleTodoB] ≠ [sampleTodoA, sampleTodoB] := by
  decide

/-- C3 amended: after a failed toggle (called with the record's own flag) or a failed
set-status the cache is restored exactly; after a failed delete or bulk clear the
cache is a permutation of the prior cache — the same records with the same fields,
but with the removed records re-inserted at the front rather than at their prior
positions. -/
theorem rollback_restores_cache :
    (∀ (todos : List Todo) (i : String) (t : Todo), NodupIds todos → t ∈ todos → t.id = i →
      toggleTodoFailure i t.completed todos = todos) ∧
    (∀ (todos : List Todo) (i : String) (s : TodoStatus), NodupIds todos →
      updateTodoStatusFailure i s todos = todos) ∧
    (∀ (todos : List Todo) (i : String), NodupIds todos →
      List.Perm (deleteTodoFailure i todos) todos) ∧
    (∀ todos : List Todo, List.Perm (clearCompletedFailure todos) todos) :=
  ⟨fun todos i t h ht hid => toggleTodoFailure_eq_self i t todos h ht hid,
   fun todos i s h => updateTodoStatusFailure_eq_self i s todos h,
   fun todos i h => deleteTodoFailure_perm i todos h,
   clearCompletedFailure_perm⟩

theorem rollback_restores_cache_witness :
    toggleTodoFailure "a1" sampleTodoA.completed [sampleTodoA, sampleTodoB]
      = [sampleTodoA, sampleTodoB] ∧
    List.Perm (deleteTodoFailure "b2" [sampleTodoA, sampleTodoB]) [sampleTodoA, sampleTodoB] :=
  ⟨rollback_restores_cache.1 [sampleTodoA, sampleTodoB] "a1" sampleTodoA (by decide)
      (by simp) rfl,
   rollback_restores_cache.2.2.1 [sampleTodoA, sampleTodoB] "b2" (by decide)⟩

/-- C6: after a toggle (called, as the UI does, with the record's current flag) whose
remote write fails and is rolled back, the record with that identifier carries its
pre-toggle completed flag, and the cache still has no duplicate identifier. -/
theorem toggleTodoFailure_restores_completed (todos : List Todo) (i : String) (t : Todo)
    (h : NodupIds todos) (ht : t ∈ todos) (hid : t.id = i) :
    (∀ u ∈ toggleTodoFailure i t.completed todos, u.id = i → u.completed = t.completed) ∧
    NodupIds (toggleTodoFailure i t.completed todos) := by
  rw [toggleTodoFailure_eq_self i t todos h ht hid]
  refine ⟨?_, h⟩
  intro u hu huid
  have heq : u = t := nodupIds_inj todos h u t hu ht (by rw [huid, hid])
  rw [heq]

theorem toggleTodoFailure_restores_completed_witness :
    NodupIds (toggleTodoFailure "b2" sampleTodoB.completed [sampleTodoA, sampleTodoB]) :=
  (toggleTodoFailure_restores_completed [sampleTodoA, sampleTodoB] "b2" sampleTodoB
    (by decide) (by simp) rfl).2

/-- C7: the optimistic toggle changes only the `completed` field of the record with
the given identifier, and the optimistic status update changes only its `status`
field; every other field and every non-matching record (at its same position) is
unchanged, so `completed` and `status` are independent. -/
theorem optimistic_updates_frame (todos : List Todo) (i : String) (c : Bool)
    (s : TodoStatus) :
    (toggleTodoOptimistic i c todos).length = todos.length ∧
    (updateTodoStatusOptimistic i s todos).length = todos.length ∧
    (∀ (k : Nat) (hk : k < todos.length)
        (hk2 : k < (toggleTodoOptimistic i c todos).length),
      ((toggleTodoOptimistic i c todos).get ⟨k, hk2⟩).id = (todos.get ⟨k, hk⟩).id ∧
      ((toggleTodoOptimistic i c todos).get ⟨k, hk2⟩).user_id = (todos.get ⟨k, hk⟩).user_id ∧
      ((toggleTodoOptimistic i c todos).get ⟨k, hk2⟩).text = (todos.get ⟨k, hk⟩).text ∧
      ((toggleTodoOptimistic i c todos).get ⟨k, hk2⟩).status = (todos.get ⟨k, hk⟩).status ∧
      ((toggleTodoOptimistic i c todos).get ⟨k, hk2⟩).created_at
        = (todos.get ⟨k, hk⟩).created_at ∧
      ((toggleTodoOptimistic i c todos).get ⟨k, hk2⟩).updated_at
        = (todos.get ⟨k, hk⟩).updated_at ∧
      ((todos.get ⟨k, hk⟩).id = i →
        ((toggleTodoOptimistic i c todos).get ⟨k, hk2⟩).completed = !c) ∧
      ((todos.get ⟨k, hk⟩).id ≠ i →
        (toggleTodoOptimistic i c todos).get ⟨k, hk2⟩ = todos.get ⟨k, hk⟩)) ∧
    (∀ (k : Nat) (hk : k < todos.length)
        (hk2 : k < (updateTodoStatusOptimistic i s todos).length),
      ((updateTodoStatusOptimistic i s todos).get ⟨k, hk2⟩).id = (todos.get ⟨k, hk⟩).id ∧
      ((updateTodoStatusOptimistic i s todos).get ⟨k, hk2⟩).user_id
        = (todos.get ⟨k, hk⟩).user_id ∧
      ((updateTodoStatusOptimistic i s todos).get ⟨k, hk2⟩).text = (todos.get ⟨k, hk⟩).text ∧
      ((updateTodoStatusOptimistic i s todos).get ⟨k, hk2⟩).completed
        = (todos.get ⟨k, hk⟩).completed ∧
      ((updateTodoStatusOptimistic i s todos).get ⟨k, hk2⟩).created_at
        = (todos.get ⟨k, hk⟩).created_at ∧
      ((updateTodoStatusOptimistic i s todos).get ⟨k, hk2⟩).updated_at
        = (todos.get ⟨k, hk⟩).updated_at ∧
      ((todos.get ⟨k, hk⟩).id = i →
        ((updateTodoStatusOptimistic i s todos).get ⟨k, hk2⟩).status = s) ∧
      ((todos.get ⟨k, hk⟩).id ≠ i →
        (updateTodoStatusOptimistic i s todos).get ⟨k, hk2⟩ = todos.get ⟨k, hk⟩)) := by
  refine ⟨by simp [toggleTodoOptimistic], by simp [updateTodoStatusOptimistic], ?_, ?_⟩
  · intro k hk hk2
    have hT : (toggleTodoOptimistic i c todos).get ⟨k, hk2⟩
        = if (todos.get ⟨k, hk⟩).id == i then { todos.get ⟨k, hk⟩ with completed := !c }
          else todos.get ⟨k, hk⟩ :=
      keyed_map_get (fun t => { t with completed := !c }) i todos k hk hk2
    by_cases hcase : (todos.get ⟨k, hk⟩).id == i
    · rw [hT, if_pos hcase]
      exact ⟨rfl, rfl, rfl, rfl, rfl, rfl, fun _ => rfl,
        fun hne => absurd (by simpa using hcase) hne⟩
    · rw [hT, if_neg hcase]
      exact ⟨rfl, rfl, rfl, rfl, rfl, rfl,
        fun heq => absurd (beq_iff_eq.mpr heq) hcase, fun _ => rfl⟩
  · intro k hk hk2
    have hT : (updateTodoStatusOptimistic i s todos).get ⟨k, hk2⟩
        = if (todos.get ⟨k, hk⟩).id == i then { todos.get ⟨k, hk⟩ with status := s }
          else todos.get ⟨k, hk⟩ :=
      keyed_map_get (fun t => { t with status := s }) i todos k hk hk2
    by_cases hcase : (todos.get ⟨k, hk⟩).id == i
    · rw [hT, if_pos hcase]
      exact ⟨rfl, rfl, rfl, rfl, rfl, rfl, fun _ => rfl,
        fun hne => absurd (by simpa using hcase) hne⟩
    · rw [hT, if_neg hcase]
      exact ⟨rfl, rfl, rfl, rfl, rfl, rfl,
        fun heq => absurd (beq_iff_eq.mpr heq) hcase, fun _ => rfl⟩

theorem optimistic_updates_frame_witness :
    ((updateTodoStatusOptimistic "a1" TodoStatus.done [sampleTodoA, sampleTodoB]).get
        ⟨0, by decide⟩).completed
      = ([sampleTodoA, sampleTodoB].get ⟨0, by decide⟩).completed :=
  ((optimistic_updates_frame [sampleTodoA, sampleTodoB] "a1" false TodoStatus.done).2.2.2
    0 (by decide) (by decide)).2.2.2.1
